import Mathlib

/-!
# Verification of the TUTOR-BACKEND retrieval/reranking/evaluation pipeline

Shallow embedding of the algorithmic core of the repository:

* `src/src/services/reranking_service.py` — `RerankingService` (strategies
  `semantic_relevance`, `query_intent`, `hybrid`), modelled over rational
  scores.  Python floats are modelled as `ℚ`; LLM calls are modelled by
  passing the *parse outcome* of the LLM response as a parameter
  (`none` = the call or JSON parsing raised, `some data` = the parsed
  JSON array of `{position, relevance_score}` entries).
* `src/src/rag/graph.py` — the LangGraph pipeline nodes
  (`search_qdrant_node`, `rerank_results_node`, `generate_response_node`).
  Nodes additionally return a log of the external LLM effects they perform,
  so that "never invoked" claims can be stated.
* `src/src/services/ragas_evaluation_service.py` — the fallback heuristic
  evaluation metrics and the top-level crash-safe `evaluate_rag_quality`.

The Python dataclass `SearchResult` is mutated in place by the reranking
strategies (the same objects are shared between the input list and the
lists returned by each pass).  This aliasing is modelled explicitly: a
*pool* (`List SearchResult`) holds the current state of every object and
the passes return lists of *indices* into the pool.
-/

/-- `dataclass SearchResult` of `reranking_service.py`.  A `none` field
models a Python `None` (for dict outputs: an absent key). -/
structure SearchResult where
  title : String
  link : String
  snippet : String
  position : Int
  relevance_score : Option ℚ := none
  rerank_position : Option Nat := none
deriving DecidableEq, Inhabited

/-- One parsed entry of the LLM reranking JSON array.  `item.get("position")`
and `item.get("relevance_score")` return `None` for a missing key, hence the
`Option`s. -/
structure RerankItem where
  position : Option Int := none
  relevance_score : Option ℚ := none
deriving DecidableEq, Inhabited

/-- `result.relevance_score = s` (in-place attribute assignment). -/
def setScore (r : SearchResult) (s : ℚ) : SearchResult :=
  { r with relevance_score := some s }

/-- Models `next((r for r in results if r.position == pos), None)` followed by
the in-place score assignment on the found object: returns the updated pool
and the index of the first element whose `position` equals `pos` (if any). -/
def findAndScore (pos : Int) (sc : ℚ) : List SearchResult → List SearchResult × Option Nat
  | [] => ([], none)
  | r :: rs =>
    if r.position = pos then (setScore r sc :: rs, some 0)
    else
      let rest := findAndScore pos sc rs
      (r :: rest.1, rest.2.map (· + 1))

/-- The per-entry loop of `_semantic_relevance_reranking` /
`_query_intent_reranking`: for each `{position, relevance_score}` entry, find
the first matching result object, set its score
(`float(relevance_score) if relevance_score is not None else 0.0`) and append
the object (modelled by its pool index) to `reranked_results`; entries whose
position matches nothing are skipped. -/
def applyRerankData : List RerankItem → List SearchResult × List Nat → List SearchResult × List Nat
  | [], acc => acc
  | item :: rest, (pool, idxs) =>
    match item.position with
    | none => applyRerankData rest (pool, idxs)
    | some pos =>
      let found := findAndScore pos (item.relevance_score.getD 0) pool
      match found.2 with
      | none => applyRerankData rest (found.1, idxs)
      | some j => applyRerankData rest (found.1, idxs ++ [j])

/-- Stable insertion (descending) used to model Python's stable
`list.sort(key=..., reverse=True)`. -/
def insertDescBy {α : Type} (key : α → ℚ) (x : α) : List α → List α
  | [] => [x]
  | y :: ys => if key y ≤ key x then x :: y :: ys else y :: insertDescBy key x ys

/-- Stable descending sort by a rational key (Python
`sort(key=..., reverse=True)`: descending, ties keep original order). -/
def sortDescBy {α : Type} (key : α → ℚ) : List α → List α
  | [] => []
  | x :: xs => insertDescBy key x (sortDescBy key xs)

/-- Python sort key `lambda x: x.relevance_score or 0.0` read off the pool. -/
def poolKey (pool : List SearchResult) (j : Nat) : ℚ :=
  ((pool.getD j default).relevance_score).getD 0

/-- `_semantic_relevance_reranking`: `parse` is the outcome of
`json.loads` on the (bracket-extracted) LLM response; `none` models any
exception inside the `try` block, in which case the function returns
`results` unchanged (here: the untouched pool together with the identity
index list).  On success the scored objects are collected and stably sorted
descending by score. -/
def semantic_relevance_reranking (parse : Option (List RerankItem))
    (results : List SearchResult) : List SearchResult × List Nat :=
  match parse with
  | none => (results, List.range results.length)
  | some data =>
    let applied := applyRerankData data (results, [])
    (applied.1, sortDescBy (poolKey applied.1) applied.2)

/-- `_query_intent_reranking`: identical data flow to the semantic pass (the
detected intent only changes the prompt text, not the processing of the
parsed response). -/
def query_intent_reranking (parse : Option (List RerankItem))
    (results : List SearchResult) : List SearchResult × List Nat :=
  match parse with
  | none => (results, List.range results.length)
  | some data =>
    let applied := applyRerankData data (results, [])
    (applied.1, sortDescBy (poolKey applied.1) applied.2)

/-- In-place score assignment at a known pool index
(`result.relevance_score = combined_score` inside `_hybrid_reranking`). -/
def setScoreAt : List SearchResult → Nat → ℚ → List SearchResult
  | [], _, _ => []
  | r :: rs, 0, c => setScore r c :: rs
  | r :: rs, n + 1, c => r :: setScoreAt rs n c

/-- `next((r.relevance_score for r in pass_results if r.position == pos), 0.0)`:
scan the pass's (index-represented) result list over the *current* pool and
return the first matching object's score.  The found score may be Python
`None`, in which case the subsequent multiplication raises `TypeError`
(hence `Option ℚ` here, `none` meaning "found an object with score `None`"). -/
def lookupScore (pool : List SearchResult) (idxs : List Nat) (pos : Int) : Option ℚ :=
  match idxs.find? (fun j => (pool.getD j default).position == pos) with
  | some j => (pool.getD j default).relevance_score
  | none => some 0

/-- The combination loop of `_hybrid_reranking`
(`for i, result in enumerate(results)`), threading the in-place score
mutations through the pool.  Returns `none` when Python would raise a
`TypeError` (a `None` score reaching `semantic_score * 0.7`). -/
def hybridCombine (semIdxs intIdxs : List Nat) :
    List Nat → List SearchResult × List Nat → Option (List SearchResult × List Nat)
  | [], acc => some acc
  | i :: rest, (pool, out) =>
    let pos := (pool.getD i default).position
    match lookupScore pool semIdxs pos, lookupScore pool intIdxs pos with
    | some s, some t =>
      let combined := s * (7/10) + t * (3/10)
      hybridCombine semIdxs intIdxs rest (setScoreAt pool i combined, out ++ [i])
    | _, _ => none

/-- `_hybrid_reranking`: runs the semantic pass, then the intent pass *on the
same (already mutated) objects*, then combines.  `none` models an uncaught
exception inside `_hybrid_reranking` (propagating to the `except` of
`rerank_results`). -/
def hybrid_reranking (semParse intParse : Option (List RerankItem))
    (results : List SearchResult) : Option (List SearchResult × List Nat) :=
  let sem := semantic_relevance_reranking semParse results
  let int := query_intent_reranking intParse sem.1
  match hybridCombine sem.2 int.2 (List.range int.1.length) (int.1, []) with
  | none => none
  | some combined => some (combined.1, sortDescBy (poolKey combined.1) combined.2)

/-- The final dict-building loop of `rerank_results`
(`for i, result in enumerate(reranked)`): assigns the fallback score
`max(0.1, 1.0 - i * 0.1)` when `relevance_score is None` (an in-place
mutation, threaded through the pool) and sets `rerank_position := i + 1`. -/
def convertOut : List SearchResult → List Nat → Nat → List SearchResult
  | _, [], _ => []
  | pool, j :: js, i =>
    let r := pool.getD j default
    let sc : ℚ :=
      match r.relevance_score with
      | some s => s
      | none => max (1/10) (1 - (i : ℚ) * (1/10))
    { r with relevance_score := some sc, rerank_position := some (i + 1) } ::
      convertOut (setScoreAt pool j sc) js (i + 1)

/-- The strategy-selection block of `rerank_results` (unknown names fall
through to semantic relevance); `none` = the strategy raised. -/
def strategyDispatch (strategy : String) (semParse intParse : Option (List RerankItem))
    (results : List SearchResult) : Option (List SearchResult × List Nat) :=
  if strategy = "semantic_relevance" then some (semantic_relevance_reranking semParse results)
  else if strategy = "query_intent" then some (query_intent_reranking intParse results)
  else if strategy = "hybrid" then hybrid_reranking semParse intParse results
  else some (semantic_relevance_reranking semParse results)

/-- `RerankingService.rerank_results`.  `semParse` / `intParse` are the parse
outcomes of the semantic / intent LLM calls (see
`semantic_relevance_reranking`).  An unknown strategy name falls through to
semantic relevance; an exception escaping a strategy (only possible for
`hybrid`) is caught by the outer `except`, which returns the input
unchanged. -/
def rerank_results (strategy : String) (semParse intParse : Option (List RerankItem))
    (results : List SearchResult) : List SearchResult :=
  if results.isEmpty then results
  else
    match strategyDispatch strategy semParse intParse results with
    | none => results
    | some pr => convertOut pr.1 pr.2 0

/-- Python `str.lower()` on a character (ASCII case mapping; all strings the
service compares are ASCII). -/
def asciiLower (c : Char) : Char :=
  if 65 ≤ c.toNat ∧ c.toNat ≤ 90 then Char.ofNat (c.toNat + 32) else c

/-- Python `str.lower()` (ASCII). -/
def pyLower (s : String) : String :=
  String.mk (s.data.map asciiLower)

/-- Python `str.strip()` (whitespace from both ends). -/
def pyStrip (s : String) : String :=
  String.mk (((s.data.dropWhile Char.isWhitespace).reverse.dropWhile
    Char.isWhitespace).reverse)

/-- `_analyze_query_intent`: `llmOutcome` is the LLM reply content (`none` =
the call raised).  The reply is stripped and lowercased and returned as-is —
the taxonomy appears only in the prompt text, membership is never checked. -/
def analyze_query_intent (llmOutcome : Option String) : String :=
  match llmOutcome with
  | some s => pyLower (pyStrip s)
  | none => "factual"

/-- The fixed intent taxonomy offered in the `_analyze_query_intent` prompt. -/
def intentTaxonomy : List String :=
  ["factual", "how_to", "comparison", "explanation", "examples", "research"]

/-!
## The RAG pipeline graph (`src/src/rag/graph.py`)

Qdrant hits are dicts with (at least) `question` / `source` / `answer` keys;
`none` models an absent key.  Each node returns, besides the new state, the
list of external LLM effects it performed, so that short-circuit claims
("rerank / generate never invoked") are statable.
-/

/-- A Qdrant hit (an element of `state["context"]`); the reranking node may
attach `relevance_score` / `rerank_position` to a copy of it. -/
structure Hit where
  question : Option String := none
  source : Option String := none
  answer : Option String := none
  relevance_score : Option ℚ := none
  rerank_position : Option Nat := none
deriving DecidableEq, Inhabited

/-- The `response` dict of `RAGState`; `none` models an absent key.
(The `metadata` entry carries only opaque LLM metadata and is not
modelled.) -/
structure RAGResponse where
  text : Option String := none
  questions : Option (List Hit) := none
  model : Option String := none
  explanation : Option String := none
deriving DecidableEq, Inhabited

/-- `class RAGState(TypedDict, total=False)`: absent optional entries are
modelled by `none` / the falsy default. -/
structure RAGState where
  query : String := ""
  embedding : Option (List ℚ) := none
  context : List Hit := []
  response : Option RAGResponse := none
  model_type : Option String := none
  model_name : Option String := none
  use_llm : Bool := false
  enable_reranking : Bool := false
  reranking_strategy : Option String := none
deriving Inhabited

/-- The fixed "no relevant content" payload built by `search_qdrant_node`
for an empty hit list. -/
def noContentResponse : RAGResponse :=
  { text := some "Sorry, I couldn\x27t find relevant content to answer this question.",
    model := none }

/-- `embed_query_node` (the embedding itself comes from the external
embedder, passed as `emb`). -/
def embed_query_node (emb : List ℚ) (s : RAGState) : RAGState :=
  { s with embedding := some emb }

/-- `search_qdrant_node`: `hits` is the result of
`search_similar_questions(query, top_k=5)`. -/
def search_qdrant_node (hits : List Hit) (s : RAGState) : RAGState :=
  if hits.isEmpty then
    { s with context := [], response := some noContentResponse }
  else
    { s with context := hits }

/-- Stable insertion (ascending, natural key), modelling Python's stable
`list.sort(key=...)`. -/
def insertAscBy {α : Type} (key : α → Nat) (x : α) : List α → List α
  | [] => [x]
  | y :: ys => if key x ≤ key y then x :: y :: ys else y :: insertAscBy key x ys

/-- Stable ascending sort by a natural key. -/
def sortAscBy {α : Type} (key : α → Nat) : List α → List α
  | [] => []
  | x :: xs => insertAscBy key x (sortAscBy key xs)

/-- The context entries built by `rerank_results_node` when the reranker
returned an empty list: the original hits with decaying synthetic scores. -/
def fallbackContext (context : List Hit) : List Hit :=
  context.enum.map (fun p =>
    { p.2 with relevance_score := some (max (1/10) (1 - (p.1 : ℚ) * (1/10))),
               rerank_position := some (p.1 + 1) })

/-- The `search_results` dicts `rerank_results_node` hands to the reranking
service (note the `.get` defaults). -/
def mkSearchResults (context : List Hit) : List SearchResult :=
  context.enum.map (fun p =>
    { title := p.2.question.getD ("Result " ++ toString (p.1 + 1)),
      link := p.2.source.getD ("#result-" ++ toString (p.1 + 1)),
      snippet := p.2.answer.getD (p.2.question.getD ""),
      position := (p.1 : Int) + 1 })

/-- The mapping-back loop of `rerank_results_node`: out-of-range positions
are skipped; an in-range item lacking the `relevance_score` /
`rerank_position` keys raises `KeyError` (modelled by `none`), which the
node's `except` turns into "state unchanged". -/
def mapBackContext (context : List Hit) : List SearchResult → Option (List Hit)
  | [] => some []
  | item :: rest =>
    if 1 ≤ item.position ∧ item.position ≤ (context.length : Int) then
      match item.relevance_score, item.rerank_position with
      | some sc, some rp =>
        (mapBackContext context rest).map (fun tl =>
          { context.getD (item.position - 1).toNat default with
              relevance_score := some sc, rerank_position := some rp } :: tl)
      | _, _ => none
    else mapBackContext context rest

/-- `rerank_results_node`.  The effect log records whether the reranking
service (and with it its LLM calls) was invoked at all. -/
def rerank_results_node (semParse intParse : Option (List RerankItem))
    (s : RAGState) : RAGState × List String :=
  if !s.enable_reranking || s.context.isEmpty then (s, [])
  else
    let reranked := rerank_results (s.reranking_strategy.getD "semantic_relevance")
        semParse intParse (mkSearchResults s.context)
    match mapBackContext s.context reranked with
    | none => (s, ["rerank_llm"])
    | some ctx0 =>
      let sorted := sortAscBy (fun h => h.rerank_position.getD 0) ctx0
      if sorted.isEmpty then
        ({ s with context := fallbackContext s.context }, ["rerank_llm"])
      else
        ({ s with context := sorted }, ["rerank_llm"])

/-- `generate_response_node`: `llmText` is the explanation produced by the
LLM (`none` = `route_llm` returned a falsy handle, so the invocation is
skipped).  The effect log records the `llm.invoke` call. -/
def generate_response_node (llmText : Option String) (s : RAGState) :
    RAGState × List String :=
  if s.context.isEmpty then (s, [])
  else
    let payload : RAGResponse := { questions := some s.context, model := none }
    if s.use_llm then
      match llmText with
      | none => ({ s with response := some payload }, [])
      | some t =>
        ({ s with response := some { payload with
              model := some (s.model_type.getD "gemini"),
              explanation := some t } }, ["generate_llm"])
    else
      ({ s with response := some payload }, [])

/-- The compiled LangGraph:
`embed_query → search_qdrant → rerank_results → generate_response`. -/
def run_rag_pipeline (emb : List ℚ) (hits : List Hit)
    (semParse intParse : Option (List RerankItem)) (llmText : Option String)
    (s : RAGState) : RAGState × List String :=
  let s1 := embed_query_node emb s
  let s2 := search_qdrant_node hits s1
  let r3 := rerank_results_node semParse intParse s2
  let r4 := generate_response_node llmText r3.1
  (r4.1, r3.2 ++ r4.2)

/-!
## The RAGAS evaluation service (`src/src/services/ragas_evaluation_service.py`)

Only the deterministic fallback path and the crash-safe top level are
modelled.  Python strings are Lean `String`s; `set(text.split())` becomes a
`Finset String`; Python's substring test `w in text` becomes `strContains`.
-/

/-- A context item handed to the evaluator (a dict): the five keys probed by
`_extract_text_from_context`, plus the `str(context_item)` fallback
representation used when none of them holds a truthy value. -/
structure CtxItem where
  question : Option String := none
  content : Option String := none
  text : Option String := none
  snippet : Option String := none
  answer : Option String := none
  reprStr : String := ""
deriving DecidableEq, Inhabited

/-- First entry that is present (`key in dict`) and truthy (non-empty). -/
def firstTruthy : List (Option String) → Option String
  | [] => none
  | some s :: rest => if s = "" then firstTruthy rest else some s
  | none :: rest => firstTruthy rest

/-- `_extract_text_from_context`. -/
def extract_text_from_context (c : CtxItem) : String :=
  (firstTruthy [c.question, c.content, c.text, c.snippet, c.answer]).getD c.reprStr

/-- Python `str.split()` (no argument): split on whitespace runs, no empty
pieces. -/
def pySplit (s : String) : List String :=
  (s.split Char.isWhitespace).filter (fun w => w ≠ "")

/-- Python `set(s.split())`. -/
def pyWordSet (s : String) : Finset String :=
  (pySplit s).toFinset

/-- Substring occurrence on character lists (`needle in haystack`). -/
def subOfChars (needle : List Char) : List Char → Bool
  | [] => needle.isEmpty
  | c :: rest => needle.isPrefixOf (c :: rest) || subOfChars needle rest

/-- Python `needle in hay` for strings. -/
def strContains (hay needle : String) : Bool :=
  subOfChars needle.toList hay.toList

/-- Python `any(w in hay for w in needles)`. -/
def anyContained (needles : List String) (hay : String) : Bool :=
  needles.any (fun w => strContains hay w)

/-- Per-item score of `_calculate_context_precision_fallback`'s loop body. -/
def precCtxScore (query : String) (ctx : CtxItem) : ℚ :=
  let query_words := pyWordSet (pyLower query)
  let query_important := query_words.filter (fun w => 3 < w.length)
  let ctx_text := pyLower (extract_text_from_context ctx)
  let ctx_words := pyWordSet ctx_text
  let score : ℚ :=
    if query_important.Nonempty then
      min 1 (((query_important ∩ ctx_words).card : ℚ) / (query_important.card : ℚ))
    else if query_words.Nonempty then
      min 1 (((query_words ∩ ctx_words).card : ℚ) / (query_words.card : ℚ))
    else 0
  let semantic_bonus : ℚ :=
    (if anyContained ["current", "affairs", "news", "recent", "latest"] ctx_text
     then 1/10 else 0)
    + (if anyContained ["modi", "india", "government", "prime minister"] (pyLower query)
          && anyContained ["modi", "india", "government", "prime minister"] ctx_text
       then 3/20 else 0)
    + (if anyContained ["politics", "government", "leaders"] (pyLower query)
          && anyContained ["politics", "government", "leaders", "minister", "prime"] ctx_text
       then 1/10 else 0)
  min 1 (score + semantic_bonus)

/-- `_calculate_context_precision_fallback`. -/
def calculate_context_precision_fallback (query : String) (context : List CtxItem) : ℚ :=
  if context.isEmpty then 0
  else ((context.map (precCtxScore query)).sum) / (context.length : ℚ)

/-- The stop-word set of `_calculate_faithfulness_fallback`. -/
def faithStopWords : Finset String :=
  (["the", "a", "an", "and", "or", "but", "in", "on", "at", "to", "for", "of", "with",
    "by", "is", "are", "was", "were", "be", "been", "have", "has", "had", "do", "does",
    "did", "will", "would", "could", "should", "may", "might", "can", "this", "that",
    "these", "those"]).toFinset

/-- The analytical-marker words of `_calculate_faithfulness_fallback`. -/
def analyticalWords : List String :=
  ["because", "therefore", "however", "example", "definition", "theme", "overarching",
   "multifaceted", "influence", "spheres", "identity", "policy", "growth"]

/-- `_calculate_faithfulness_fallback`. -/
def calculate_faithfulness_fallback (context : List CtxItem) (response : String) : ℚ :=
  if context.isEmpty || response = "" then 0
  else
    let context_text := String.intercalate " " (context.map extract_text_from_context)
    let context_meaningful := pyWordSet (pyLower context_text) \ faithStopWords
    let response_meaningful := pyWordSet (pyLower response) \ faithStopWords
    if ¬ context_meaningful.Nonempty then 0
    else
      let base0 : ℚ :=
        min 1 (((context_meaningful ∩ response_meaningful).card : ℚ) /
                 (context_meaningful.card : ℚ))
      let base1 := if 100 < response.length then min 1 (base0 + 3/20) else base0
      let acount := (analyticalWords.filter (fun w => strContains (pyLower response) w)).length
      let base2 := if 0 < acount then min 1 (base1 + (acount : ℚ) * (1/20)) else base1
      let base3 :=
        if anyContained ["theme", "pattern", "connection", "relationship", "overall"]
             (pyLower response)
        then min 1 (base2 + 1/10) else base2
      let base4 :=
        if anyContained ["context", "background", "significance", "meaning", "purpose"]
             (pyLower response)
        then min 1 (base3 + 1/10) else base3
      let ratio : ℚ := (response.length : ℚ) / (context_text.length : ℚ)
      if 1/2 ≤ ratio ∧ ratio ≤ 3 then min 1 (base4 + 1/10) else base4

/-- The short stop-word set of `_calculate_answer_correctness_fallback`. -/
def smallStopWords : Finset String :=
  (["the", "a", "an", "and", "or", "but", "in", "on", "at", "to", "for", "of", "with",
    "by"]).toFinset

/-- `_calculate_answer_correctness_fallback`. -/
def calculate_answer_correctness_fallback (response : String)
    (ground_truth : Option String) : ℚ :=
  let gt := ground_truth.getD ""
  if gt = "" then
    let score : ℚ :=
      (if 100 < response.length then 3/10
       else if 50 < response.length then 1/5
       else if 20 < response.length then 1/10 else 0)
      + (if strContains response "." && strContains response "," then 1/5
         else if strContains response "." then 1/10 else 0)
      + (if anyContained ["because", "therefore", "however", "example", "definition"]
             (pyLower response) then 1/5 else 0)
      + (if anyContained ["is", "are", "was", "were", "can", "will", "does"]
             (pyLower response) then 1/10 else 0)
    min 1 score
  else
    let truth_words := pyWordSet (pyLower gt)
    if ¬ truth_words.Nonempty then 0
    else
      let response_meaningful := pyWordSet (pyLower response) \ smallStopWords
      let truth_meaningful := truth_words \ smallStopWords
      if ¬ truth_meaningful.Nonempty then 0
      else
        let base0 : ℚ :=
          min 1 (((response_meaningful ∩ truth_meaningful).card : ℚ) /
                   (truth_meaningful.card : ℚ))
        let response_lower := pyLower response
        let truth_lower := pyLower gt
        let base1 :=
          if strContains response_lower truth_lower then min 1 (base0 + 1/5)
          else if (truth_lower.splitOn ".").any (fun ph => strContains response_lower ph)
          then min 1 (base0 + 1/10)
          else base0
        let key_concepts := truth_meaningful.filter (fun w => 4 < w.length)
        if key_concepts.Nonempty then
          let concept_matches := (key_concepts.filter
            (fun c => strContains response_lower c)).card
          if 0 < concept_matches then
            min 1 (base1 + min (1/5)
              ((concept_matches : ℚ) / (key_concepts.card : ℚ) * (1/5)))
          else base1
        else base1

/-- Per-item relevance of `_calculate_context_relevancy_fallback`'s loop body
(before position weighting). -/
def relCtxRelevance (query : String) (ctx : CtxItem) : ℚ :=
  let query_words := pyWordSet (pyLower query)
  let qi0 := query_words.filter (fun w => 3 < w.length)
  let query_important := if qi0.Nonempty then qi0 else query_words
  let ctx_text := pyLower (extract_text_from_context ctx)
  let ctx_words := pyWordSet ctx_text
  let relevance0 : ℚ :=
    if query_important.Nonempty then
      min 1 (((query_important ∩ ctx_words).card : ℚ) / (query_important.card : ℚ))
    else if query_words.Nonempty then
      min 1 (((query_words ∩ ctx_words).card : ℚ) / (query_words.card : ℚ))
    else 0
  let semantic_bonus : ℚ :=
    (if anyContained ["what", "how", "when", "where", "why", "explain", "describe"]
          (pyLower query)
        && anyContained ["information", "details", "facts", "data"] ctx_text
     then 1/10 else 0)
    + (if anyContained ["current", "affairs", "news", "politics", "government"] (pyLower query)
          && anyContained ["current", "affairs", "news", "politics", "government",
                           "minister", "prime"] ctx_text
       then 1/10 else 0)
    + (if anyContained ["modi", "india", "government"] (pyLower query)
          && anyContained ["modi", "india", "government", "minister", "prime"] ctx_text
       then 3/20 else 0)
  min 1 (relevance0 + semantic_bonus)

/-- `_calculate_context_relevancy_fallback`: position-weighted
(`1/(i+1)`) average, normalized by the total weight. -/
def calculate_context_relevancy_fallback (query : String) (context : List CtxItem) : ℚ :=
  if context.isEmpty then 0
  else
    let total := (context.enum.map
      (fun p => relCtxRelevance query p.2 * (1 / ((p.1 : ℚ) + 1)))).sum
    let maxp := (context.enum.map (fun p => (1 : ℚ) / ((p.1 : ℚ) + 1))).sum
    if 0 < maxp then total / maxp else 0

/-- The `metadata` dict of `RAGASMetrics` (the keys the service writes). -/
structure EvalMetadata where
  evaluation_method : String
  metrics_version : Option String := none
  ground_truth_provided : Option Bool := none
  error : Option String := none
  status : Option String := none
deriving DecidableEq, Inhabited

/-- `dataclass RAGASMetrics`. -/
structure RAGASMetrics where
  context_precision : ℚ
  faithfulness : ℚ
  answer_correctness : ℚ
  context_relevancy : ℚ
  overall_score : ℚ
  evaluation_time : ℚ := 0
  metadata : EvalMetadata
deriving DecidableEq, Inhabited

/-- `dataclass RAGEvaluationResult` (`quality_insights` is a string-keyed
dict, modelled as an association list). -/
structure RAGEvaluationResult where
  query : String
  context : List CtxItem
  response : String
  metrics : RAGASMetrics
  recommendations : List String
  quality_insights : List (String × String)
deriving DecidableEq, Inhabited

/-- `_evaluate_with_fallback`. -/
def evaluate_with_fallback (query : String) (context : List CtxItem) (response : String)
    (ground_truth : Option String) : RAGASMetrics :=
  let context_precision := calculate_context_precision_fallback query context
  let faithfulness := calculate_faithfulness_fallback context response
  let answer_correctness := calculate_answer_correctness_fallback response ground_truth
  let context_relevancy := calculate_context_relevancy_fallback query context
  { context_precision := context_precision,
    faithfulness := faithfulness,
    answer_correctness := answer_correctness,
    context_relevancy := context_relevancy,
    overall_score :=
      (context_precision + faithfulness + answer_correctness + context_relevancy) / 4,
    evaluation_time := 0,
    metadata := { evaluation_method := "fallback_heuristics",
                  metrics_version := some "fallback",
                  ground_truth_provided := some ground_truth.isSome } }

/-- `_generate_quality_insights`. -/
def generate_quality_insights (m : RAGASMetrics) : List (String × String) :=
  [("context_precision",
    if m.context_precision < 2/5 then
      "Low context precision → retriever issue. Consider improving vector search parameters or embedding quality."
    else if m.context_precision < 7/10 then
      "Moderate context precision. Some retrieved content may not be highly relevant."
    else
      "High context precision. Retriever is finding relevant content effectively."),
   ("faithfulness",
    if m.faithfulness < 3/10 then
      "Low faithfulness → responses may contain significant information not grounded in context."
    else if m.faithfulness < 3/5 then
      "Moderate faithfulness. Responses include some insights beyond retrieved context (acceptable for LLM)."
    else
      "High faithfulness. Responses are well-grounded with valuable LLM insights."),
   ("answer_correctness",
    if m.answer_correctness < 2/5 then
      "Low answer correctness → responses may contain factual errors."
    else if m.answer_correctness < 7/10 then
      "Moderate answer correctness. Some responses may have minor inaccuracies."
    else
      "High answer correctness. Generated responses are factually accurate."),
   ("context_relevancy",
    if m.context_relevancy < 2/5 then
      "Low relevancy → recommendations may not match user intent."
    else if m.context_relevancy < 7/10 then
      "Moderate relevancy. Some recommendations may not be perfectly aligned."
    else
      "High relevancy. Recommendations are well-aligned with user intent.")]

/-- `_generate_recommendations`. -/
def generate_recommendations (m : RAGASMetrics) : List String :=
  (if m.context_precision < 1/2 then
     ["Improve retriever by adjusting vector search parameters or enhancing embeddings",
      "Consider adding more diverse training data to the vector store"]
   else if m.context_precision < 3/5 then
     ["Retriever performance is acceptable but could be optimized for better precision"]
   else [])
  ++ (if m.faithfulness < 2/5 then
        ["Consider implementing basic grounding checks in response generation",
         "LLM responses may benefit from more context-aware prompting"]
      else if m.faithfulness < 3/5 then
        ["Faithfulness is acceptable for LLM-enhanced responses",
         "Consider fine-tuning prompts for better context grounding"]
      else [])
  ++ (if m.answer_correctness < 1/2 then
        ["Enhance answer validation using multiple sources",
         "Implement confidence scoring for generated responses"]
      else if m.answer_correctness < 3/5 then
        ["Answer correctness is acceptable for most use cases"]
      else [])
  ++ (if m.context_relevancy < 1/2 then
        ["Improve query understanding and intent classification",
         "Add user feedback loops to refine recommendation relevance"]
      else if m.context_relevancy < 3/5 then
        ["Context relevancy is acceptable but could be optimized"]
      else [])
  ++ (if m.overall_score < 1/2 then
        ["Consider comprehensive RAG pipeline optimization",
         "Implement A/B testing for different retrieval strategies"]
      else if m.overall_score < 3/5 then
        ["Overall performance is acceptable for production use",
         "Consider incremental improvements based on user feedback"]
      else [])
  ++ (if 7/10 ≤ m.overall_score then
        ["Excellent RAG performance! Consider documenting best practices"]
      else [])

/-- `_create_fallback_result`. -/
def create_fallback_result (query : String) (context : List CtxItem) (response : String)
    (error : String) : RAGEvaluationResult :=
  { query := query, context := context, response := response,
    metrics := { context_precision := 0, faithfulness := 0, answer_correctness := 0,
                 context_relevancy := 0, overall_score := 0, evaluation_time := 0,
                 metadata := { evaluation_method := "error_fallback",
                               error := some error,
                               status := some "evaluation_failed" } },
    recommendations := ["Fix evaluation service", "Check RAGAS installation"],
    quality_insights := [("error", "Evaluation failed: " ++ error)] }

/-- `evaluate_rag_quality`: `metrics_available` is the construction-time
`RAGAS_AVAILABLE` flag; `ragasOutcome` is the outcome of the library-backed
`_evaluate_with_ragas` call (`Except.error e` = an exception with message
`e` was raised inside the `try` block; the fallback path is pure and cannot
raise). -/
def evaluate_rag_quality (metrics_available : Bool)
    (ragasOutcome : Except String RAGASMetrics)
    (query : String) (context : List CtxItem) (response : String)
    (ground_truth : Option String) : RAGEvaluationResult :=
  let inner : Except String RAGASMetrics :=
    if metrics_available then ragasOutcome
    else Except.ok (evaluate_with_fallback query context response ground_truth)
  match inner with
  | Except.ok m =>
    { query := query, context := context, response := response, metrics := m,
      recommendations := generate_recommendations m,
      quality_insights := generate_quality_insights m }
  | Except.error e => create_fallback_result query context response e

/-!
## Claims
-/

/-- C8: for query "test" (the query only enters the prompt text, not the
data flow), 4 candidates at positions 1–4 and the parsed LLM response
`[{"position": 3, "relevance_score": 0.9}, {"position": 1, "relevance_score": 0.5}]`,
the reranker returns exactly the position-3 candidate (score 0.9,
rerank_position 1) followed by the position-1 candidate (score 0.5,
rerank_position 2); positions 2 and 4 are absent. -/
theorem rerank_concrete_scenario :
    rerank_results "semantic_relevance"
      (some [{ position := some 3, relevance_score := some (9/10) },
             { position := some 1, relevance_score := some (1/2) }]) none
      [{ title := "t1", link := "l1", snippet := "s1", position := 1 },
       { title := "t2", link := "l2", snippet := "s2", position := 2 },
       { title := "t3", link := "l3", snippet := "s3", position := 3 },
       { title := "t4", link := "l4", snippet := "s4", position := 4 }] =
      [{ title := "t3", link := "l3", snippet := "s3", position := 3,
         relevance_score := some (9/10), rerank_position := some 1 },
       { title := "t1", link := "l1", snippet := "s1", position := 1,
         relevance_score := some (1/2), rerank_position := some 2 }] := by
  norm_num [rerank_results, strategyDispatch, semantic_relevance_reranking, applyRerankData,
    findAndScore, setScore, sortDescBy, insertDescBy, poolKey, convertOut, setScoreAt]

/-- C1 (code bug): the hybrid strategy does *not* combine
`0.7 * semantic + 0.3 * intent`.  Both passes mutate the same
`SearchResult` objects, so by combination time the semantic score of every
candidate also scored by the intent pass has been overwritten by the intent
score.  At the failing input (one candidate at position 1, semantic pass
score 0.8, intent pass score 0.2) the code produces 0.2, while
`0.7 * 0.8 + 0.3 * 0.2 = 0.62`. -/
theorem hybrid_overwrites_semantic_score :
    (rerank_results "hybrid"
      (some [{ position := some 1, relevance_score := some (4/5) }])
      (some [{ position := some 1, relevance_score := some (1/5) }])
      [{ title := "t", link := "l", snippet := "s", position := 1 }]).map
        (fun r => r.relevance_score) = [some (1/5)]
    ∧ (1/5 : ℚ) ≠ (7/10) * (4/5) + (3/10) * (1/5) := by
  constructor
  · have h : ("hybrid" = "semantic_relevance") = False := by decide
    norm_num [h, rerank_results, strategyDispatch, hybrid_reranking, hybridCombine,
      lookupScore, semantic_relevance_reranking, query_intent_reranking, applyRerankData,
      findAndScore, setScore, sortDescBy, insertDescBy, poolKey, convertOut, setScoreAt]
  · norm_num

/-- C9 (counterexample): `_analyze_query_intent` performs no taxonomy
validation — an LLM reply of "Banana" is returned as "banana", which is not
in the fixed taxonomy. -/
theorem intent_outside_taxonomy :
    analyze_query_intent (some "Banana") = "banana" ∧
    "banana" ∉ intentTaxonomy := by decide

/-- C9 (amended): `_analyze_query_intent` returns the LLM reply stripped and
lowercased without checking taxonomy membership, so its output lies in the
fixed taxonomy exactly when the normalized reply does; it returns "factual"
(a taxonomy member) whenever the LLM call raises. -/
theorem intent_amended (s : String) :
    (analyze_query_intent (some s) ∈ intentTaxonomy ↔
      pyLower (pyStrip s) ∈ intentTaxonomy)
    ∧ analyze_query_intent none = "factual"
    ∧ analyze_query_intent none ∈ intentTaxonomy :=
  ⟨Iff.rfl, rfl, by decide⟩

/-- C6: any exception raised inside evaluation (modelled by the library
path's outcome being `Except.error e`) is converted into an all-zero
`error_fallback` result with the exception message recorded — never an
unhandled exception. -/
theorem evaluation_crash_safe (query : String) (context : List CtxItem)
    (response : String) (ground_truth : Option String) (e : String) :
    (evaluate_rag_quality true (Except.error e) query context response
        ground_truth).metrics.context_precision = 0 ∧
    (evaluate_rag_quality true (Except.error e) query context response
        ground_truth).metrics.faithfulness = 0 ∧
    (evaluate_rag_quality true (Except.error e) query context response
        ground_truth).metrics.answer_correctness = 0 ∧
    (evaluate_rag_quality true (Except.error e) query context response
        ground_truth).metrics.context_relevancy = 0 ∧
    (evaluate_rag_quality true (Except.error e) query context response
        ground_truth).metrics.overall_score = 0 ∧
    (evaluate_rag_quality true (Except.error e) query context response
        ground_truth).metrics.metadata.evaluation_method = "error_fallback" ∧
    (evaluate_rag_quality true (Except.error e) query context response
        ground_truth).metrics.metadata.error = some e :=
  ⟨rfl, rfl, rfl, rfl, rfl, rfl, rfl⟩

/-- C5: if retrieval returns an empty list, the pipeline's final response is
the fixed "no relevant content" payload and neither the reranking service
nor the response-generation LLM is ever invoked (empty effect log). -/
theorem empty_retrieval_short_circuit (emb : List ℚ) (hits : List Hit)
    (semParse intParse : Option (List RerankItem)) (llmText : Option String)
    (s : RAGState) (h : hits = []) :
    (run_rag_pipeline emb hits semParse intParse llmText s).1.response =
      some noContentResponse ∧
    (run_rag_pipeline emb hits semParse intParse llmText s).2 = [] := by
  subst h
  simp [run_rag_pipeline, embed_query_node, search_qdrant_node, rerank_results_node,
    generate_response_node]

/-- Witness for C5 at a concrete state with reranking and LLM enabled. -/
theorem empty_retrieval_short_circuit_witness :
    (run_rag_pipeline [] [] none none (some "expl")
      { query := "q", enable_reranking := true, use_llm := true }).1.response =
      some noContentResponse ∧
    (run_rag_pipeline [] [] none none (some "expl")
      { query := "q", enable_reranking := true, use_llm := true }).2 = [] :=
  empty_retrieval_short_circuit [] [] none none (some "expl") _ rfl

/-- C10: an unknown strategy name is silently dispatched to semantic
relevance, producing the identical result. -/
theorem unknown_strategy_defaults_to_semantic (strategy : String)
    (semParse intParse : Option (List RerankItem)) (results : List SearchResult)
    (h : strategy ∉ ["semantic_relevance", "query_intent", "hybrid"]) :
    rerank_results strategy semParse intParse results =
      rerank_results "semantic_relevance" semParse intParse results := by
  simp only [List.mem_cons, List.not_mem_nil, or_false, not_or] at h
  obtain ⟨h1, h2, h3⟩ := h
  unfold rerank_results strategyDispatch
  simp [h1, h2, h3]

/-- Witness for C10 at the strategy name "bogus". -/
theorem unknown_strategy_defaults_to_semantic_witness :
    rerank_results "bogus" none none
      [{ title := "t", link := "l", snippet := "s", position := 1 }] =
    rerank_results "semantic_relevance" none none
      [{ title := "t", link := "l", snippet := "s", position := 1 }] :=
  unknown_strategy_defaults_to_semantic "bogus" none none _ (by decide)

/-- C3 (counterexample): on a JSON-parse failure the reranker does *not*
return the input items unchanged — the returned items are augmented with a
fallback `relevance_score` (here 1.0) and a `rerank_position` that the
input items lacked. -/
theorem parse_failure_not_identity :
    rerank_results "semantic_relevance" none none
      [{ title := "t", link := "l", snippet := "s", position := 1 }] =
      [{ title := "t", link := "l", snippet := "s", position := 1,
         relevance_score := some 1, rerank_position := some 1 }] ∧
    rerank_results "semantic_relevance" none none
      [{ title := "t", link := "l", snippet := "s", position := 1 }] ≠
      [{ title := "t", link := "l", snippet := "s", position := 1 }] := by
  have h1 : rerank_results "semantic_relevance" none none
      [{ title := "t", link := "l", snippet := "s", position := 1 }] =
      [{ title := "t", link := "l", snippet := "s", position := 1,
         relevance_score := some 1, rerank_position := some 1 }] := by
    norm_num [rerank_results, strategyDispatch, semantic_relevance_reranking, convertOut,
      setScoreAt]
  exact ⟨h1, by rw [h1]; simp⟩

/-- C4 (counterexample): at the *service* level, an LLM response that parses
to zero usable entries (here: the empty JSON array) makes `rerank_results`
return the empty list — not the original candidate list. -/
theorem zero_usable_entries_empty_at_service :
    rerank_results "semantic_relevance" (some []) none
      [{ title := "t", link := "l", snippet := "s", position := 1 }] = [] ∧
    ([] : List SearchResult) ≠
      [{ title := "t", link := "l", snippet := "s", position := 1 }] :=
  ⟨rfl, by simp⟩

/-- `setScoreAt` leaves every other index unchanged. -/
theorem getD_setScoreAt_ne (pool : List SearchResult) :
    ∀ (j k : Nat) (c : ℚ), j ≠ k →
      (setScoreAt pool j c).getD k default = pool.getD k default := by
  induction pool with
  | nil => intro j k c _; cases j <;> rfl
  | cons r rs ih =>
    intro j k c hjk
    cases j with
    | zero =>
      cases k with
      | zero => exact absurd rfl hjk
      | succ k => rfl
    | succ j =>
      cases k with
      | zero => rfl
      | succ k =>
        show (setScoreAt rs j c).getD k default = rs.getD k default
        exact ih j k c (fun hh => hjk (by rw [hh]))

/-- Closed form of the output dict built for index `k` by the final loop of
`rerank_results` when the strategy selected every candidate in original
order (the parse-failure path): an existing score is kept, a missing score
becomes the decaying fallback `max(0.1, 1 - 0.1*k)`, and
`rerank_position = k + 1`. -/
def outSpec (pool : List SearchResult) (k : Nat) : SearchResult :=
  { pool.getD k default with
    relevance_score := some (match (pool.getD k default).relevance_score with
      | some s => s
      | none => max (1/10) (1 - (k : ℚ) * (1/10))),
    rerank_position := some (k + 1) }

/-- On an identity index list the conversion loop realizes `outSpec`. -/
theorem convertOut_range' (n : Nat) :
    ∀ (s : Nat) (pool : List SearchResult),
      convertOut pool (List.range' s n) s = (List.range' s n).map (outSpec pool) := by
  induction n with
  | zero => intro s pool; rfl
  | succ n ih =>
    intro s pool
    rw [List.range'_succ, List.map_cons]
    show outSpec pool s ::
        convertOut (setScoreAt pool s (match (pool.getD s default).relevance_score with
          | some sc => sc
          | none => max (1/10) (1 - (s : ℚ) * (1/10))))
          (List.range' (s+1) n) (s+1) = _
    rw [ih]
    refine congrArg _ (List.map_congr_left fun k hk => ?_)
    have hks : s ≠ k := by
      have := (List.mem_range'_1.mp hk).1
      omega
    unfold outSpec
    rw [getD_setScoreAt_ne pool s k _ hks]

/-- C3 (amended): if the LLM reranking response is unparseable
(`json.loads` raises), `rerank_results` with the semantic strategy returns
the same candidates in the same order and with the same length, but each
item is augmented rather than returned unchanged: an already-present
relevance_score is kept, a missing one becomes `max(0.1, 1 - 0.1*i)`, and
`rerank_position = i + 1` is attached (`outSpec`). -/
theorem parse_failure_fallback_identity (intParse : Option (List RerankItem))
    (results : List SearchResult) (h : results ≠ []) :
    rerank_results "semantic_relevance" none intParse results =
      (List.range results.length).map (outSpec results) := by
  have hne : results.isEmpty = false := by
    cases results with
    | nil => exact absurd rfl h
    | cons a l => rfl
  simp only [rerank_results, strategyDispatch, hne, Bool.false_eq_true, reduceIte,
    semantic_relevance_reranking]
  rw [List.range_eq_range']
  exact convertOut_range' results.length 0 results

/-- Witness for C3 (amended) on one candidate that already carries a
score. -/
theorem parse_failure_fallback_identity_witness :
    rerank_results "semantic_relevance" none none
      [{ title := "t", link := "l", snippet := "s", position := 1,
         relevance_score := some (1/2) }] =
      (List.range 1).map (outSpec
        [{ title := "t", link := "l", snippet := "s", position := 1,
           relevance_score := some (1/2) }]) :=
  parse_failure_fallback_identity none _ (by simp)

/-- C4 (amended): when the LLM response parses but yields zero usable
entries, the reranking *service* returns the empty list; it is the pipeline
node `rerank_results_node` that then restores the candidates: its context
output is all original hits, in their original order, augmented with the
decaying fallback scores (`fallbackContext`) — never an empty list. -/
theorem zero_usable_entries_node_restores (semData : List RerankItem)
    (intParse : Option (List RerankItem)) (s : RAGState)
    (hctx : s.context ≠ [])
    (hen : s.enable_reranking = true)
    (hstrat : s.reranking_strategy.getD "semantic_relevance" = "semantic_relevance")
    (hzero : (applyRerankData semData (mkSearchResults s.context, [])).2 = []) :
    (rerank_results_node (some semData) intParse s).1.context =
      fallbackContext s.context ∧
    (rerank_results_node (some semData) intParse s).1.context ≠ [] := by
  have hpne : (mkSearchResults s.context).isEmpty = false := by
    unfold mkSearchResults
    rcases hs : s.context with _ | ⟨a, l⟩
    · exact absurd hs hctx
    · rfl
  have hsvc : rerank_results "semantic_relevance" (some semData) intParse
      (mkSearchResults s.context) = [] := by
    simp only [rerank_results, strategyDispatch, hpne, Bool.false_eq_true, reduceIte,
      semantic_relevance_reranking, hzero]
    rfl
  have hguard : (!s.enable_reranking || s.context.isEmpty) = false := by
    rw [hen]
    rcases hs : s.context with _ | ⟨a, l⟩
    · exact absurd hs hctx
    · rfl
  have heq : (rerank_results_node (some semData) intParse s).1.context =
      fallbackContext s.context := by
    simp only [rerank_results_node, hguard, Bool.false_eq_true, reduceIte, hstrat, hsvc]
    rfl
  refine ⟨heq, ?_⟩
  rw [heq]
  simp only [fallbackContext, ne_eq, List.map_eq_nil_iff, List.enum_eq_nil]
  exact hctx

/-- Witness for C4 (amended): one hit, empty parsed array. -/
theorem zero_usable_entries_node_restores_witness :
    (rerank_results_node (some []) none
      { query := "q", context := [{ question := some "q1" }],
        enable_reranking := true }).1.context =
      fallbackContext [{ question := some "q1" }] ∧
    (rerank_results_node (some []) none
      { query := "q", context := [{ question := some "q1" }],
        enable_reranking := true }).1.context ≠ [] :=
  zero_usable_entries_node_restores [] none _ (by simp) rfl rfl rfl

/-- `findAndScore` never changes a position. -/
theorem findAndScore_map_position (pos : Int) (sc : ℚ) (pool : List SearchResult) :
    (findAndScore pos sc pool).1.map SearchResult.position =
      pool.map SearchResult.position := by
  induction pool with
  | nil => rfl
  | cons r rs ih =>
    simp only [findAndScore]
    split
    · rfl
    · simp only [List.map_cons, ih]

/-- Two pools with pointwise equal positions have equal length. -/
theorem length_eq_of_map_position {l1 l2 : List SearchResult}
    (h : l1.map SearchResult.position = l2.map SearchResult.position) :
    l1.length = l2.length := by
  have := congrArg List.length h
  simpa using this

/-- `findAndScore` preserves the pool length. -/
theorem findAndScore_length (pos : Int) (sc : ℚ) (pool : List SearchResult) :
    (findAndScore pos sc pool).1.length = pool.length :=
  length_eq_of_map_position (findAndScore_map_position pos sc pool)

/-- An index reported by `findAndScore` is a valid pool index. -/
theorem findAndScore_idx_lt (pos : Int) (sc : ℚ) :
    ∀ (pool : List SearchResult) (j : Nat),
      (findAndScore pos sc pool).2 = some j → j < pool.length := by
  intro pool
  induction pool with
  | nil => intro j h; exact absurd h (by simp [findAndScore])
  | cons r rs ih =>
    intro j h
    simp only [findAndScore] at h
    split at h
    · cases h
      exact Nat.succ_pos _
    · cases hr : (findAndScore pos sc rs).2 with
      | none => rw [hr] at h; cases h
      | some a =>
        rw [hr] at h
        simp only [Option.map_some] at h
        cases h
        exact Nat.succ_lt_succ (ih a hr)

/-- The per-entry loop preserves positions and only ever records valid pool
indices. -/
theorem applyRerankData_inv (data : List RerankItem) :
    ∀ (pool : List SearchResult) (idxs : List Nat),
      (∀ j ∈ idxs, j < pool.length) →
      (applyRerankData data (pool, idxs)).1.map SearchResult.position =
          pool.map SearchResult.position ∧
      ∀ j ∈ (applyRerankData data (pool, idxs)).2, j < pool.length := by
  induction data with
  | nil => intro pool idxs hidx; exact ⟨rfl, hidx⟩
  | cons item rest ih =>
    intro pool idxs hidx
    cases hp : item.position with
    | none =>
      simp only [applyRerankData, hp]
      exact ih pool idxs hidx
    | some pos =>
      simp only [applyRerankData, hp]
      have hlen := findAndScore_length pos (item.relevance_score.getD 0) pool
      have hmap := findAndScore_map_position pos (item.relevance_score.getD 0) pool
      cases hf : (findAndScore pos (item.relevance_score.getD 0) pool).2 with
      | none =>
        simp only [hf]
        have h1 := ih (findAndScore pos (item.relevance_score.getD 0) pool).1 idxs
          (by intro j hj; rw [hlen]; exact hidx j hj)
        rw [hmap, hlen] at h1
        exact h1
      | some j =>
        simp only [hf]
        have hjlt := findAndScore_idx_lt pos (item.relevance_score.getD 0) pool j hf
        have h1 := ih (findAndScore pos (item.relevance_score.getD 0) pool).1 (idxs ++ [j])
          (by
            intro j' hj'
            rw [hlen]
            rcases List.mem_append.mp hj' with hm | hm
            · exact hidx j' hm
            · rw [List.mem_singleton] at hm; subst hm; exact hjlt)
        rw [hmap, hlen] at h1
        exact h1

/-- Membership through the stable descending insertion. -/
theorem mem_insertDescBy {α : Type} (key : α → ℚ) (x a : α) :
    ∀ l : List α, a ∈ insertDescBy key x l ↔ a = x ∨ a ∈ l := by
  intro l
  induction l with
  | nil => simp [insertDescBy]
  | cons y ys ih =>
    simp only [insertDescBy]
    split
    · simp [List.mem_cons]
    · simp only [List.mem_cons, ih]
      tauto

/-- The stable descending sort is a permutation membership-wise. -/
theorem mem_sortDescBy {α : Type} (key : α → ℚ) (a : α) :
    ∀ l : List α, a ∈ sortDescBy key l ↔ a ∈ l := by
  intro l
  induction l with
  | nil => simp [sortDescBy]
  | cons x xs ih =>
    simp [sortDescBy, mem_insertDescBy, ih, List.mem_cons]

/-- `setScoreAt` never changes a position. -/
theorem setScoreAt_map_position :
    ∀ (pool : List SearchResult) (j : Nat) (c : ℚ),
      (setScoreAt pool j c).map SearchResult.position =
        pool.map SearchResult.position := by
  intro pool
  induction pool with
  | nil => intro j c; rfl
  | cons r rs ih =>
    intro j c
    cases j with
    | zero => rfl
    | succ j => simp only [setScoreAt, List.map_cons, ih]

/-- `setScoreAt` preserves the pool length. -/
theorem setScoreAt_length (pool : List SearchResult) (j : Nat) (c : ℚ) :
    (setScoreAt pool j c).length = pool.length :=
  length_eq_of_map_position (setScoreAt_map_position pool j c)

/-- The hybrid combination loop preserves positions and records valid
indices. -/
theorem hybridCombine_inv (semIdxs intIdxs : List Nat) :
    ∀ (todo : List Nat) (pool : List SearchResult) (out : List Nat)
      (res : List SearchResult × List Nat),
      hybridCombine semIdxs intIdxs todo (pool, out) = some res →
      (∀ j ∈ todo, j < pool.length) →
      (∀ j ∈ out, j < pool.length) →
      res.1.map SearchResult.position = pool.map SearchResult.position ∧
      ∀ j ∈ res.2, j < pool.length := by
  intro todo
  induction todo with
  | nil =>
    intro pool out res h htodo hout
    cases h
    exact ⟨rfl, hout⟩
  | cons i rest ih =>
    intro pool out res h htodo hout
    simp only [hybridCombine] at h
    cases h1 : lookupScore pool semIdxs ((pool.getD i default).position) with
    | none => rw [h1] at h; cases h
    | some sv =>
      rw [h1] at h
      cases h2 : lookupScore pool intIdxs ((pool.getD i default).position) with
      | none => rw [h2] at h; cases h
      | some tv =>
        rw [h2] at h
        have hi : i < pool.length := htodo i (List.mem_cons_self _ _)
        have hmap := setScoreAt_map_position pool i (sv * (7/10) + tv * (3/10))
        have hlen := setScoreAt_length pool i (sv * (7/10) + tv * (3/10))
        have h1' := ih (setScoreAt pool i (sv * (7/10) + tv * (3/10))) (out ++ [i]) res h
          (by intro j hj; rw [hlen]; exact htodo j (List.mem_cons_of_mem _ hj))
          (by
            intro j hj
            rw [hlen]
            rcases List.mem_append.mp hj with hm | hm
            · exact hout j hm
            · rw [List.mem_singleton] at hm; subst hm; exact hi)
        rw [hmap, hlen] at h1'
        exact h1'

/-- The semantic pass preserves positions and selects only valid indices. -/
theorem semantic_pass_inv (parse : Option (List RerankItem)) (results : List SearchResult) :
    (semantic_relevance_reranking parse results).1.map SearchResult.position =
        results.map SearchResult.position ∧
    ∀ j ∈ (semantic_relevance_reranking parse results).2, j < results.length := by
  cases parse with
  | none =>
    refine ⟨rfl, ?_⟩
    intro j hj
    exact List.mem_range.mp hj
  | some data =>
    have h := applyRerankData_inv data results [] (by intro j hj; cases hj)
    simp only [semantic_relevance_reranking]
    refine ⟨h.1, ?_⟩
    intro j hj
    rw [mem_sortDescBy] at hj
    exact h.2 j hj

/-- The intent pass has the same data flow, hence the same invariant. -/
theorem intent_pass_inv (parse : Option (List RerankItem)) (results : List SearchResult) :
    (query_intent_reranking parse results).1.map SearchResult.position =
        results.map SearchResult.position ∧
    ∀ j ∈ (query_intent_reranking parse results).2, j < results.length :=
  semantic_pass_inv parse results

/-- The hybrid strategy preserves positions and selects only valid
indices. -/
theorem hybrid_inv (semParse intParse : Option (List RerankItem))
    (results : List SearchResult) (res : List SearchResult × List Nat)
    (h : hybrid_reranking semParse intParse results = some res) :
    res.1.map SearchResult.position = results.map SearchResult.position ∧
    ∀ j ∈ res.2, j < results.length := by
  have hs := semantic_pass_inv semParse results
  have hi := intent_pass_inv intParse (semantic_relevance_reranking semParse results).1
  have lenP1 : (semantic_relevance_reranking semParse results).1.length = results.length :=
    length_eq_of_map_position hs.1
  have lenP2 : (query_intent_reranking intParse
      (semantic_relevance_reranking semParse results).1).1.length = results.length :=
    (length_eq_of_map_position hi.1).trans lenP1
  unfold hybrid_reranking at h
  dsimp only [] at h
  cases hc : hybridCombine (semantic_relevance_reranking semParse results).2
      (query_intent_reranking intParse (semantic_relevance_reranking semParse results).1).2
      (List.range (query_intent_reranking intParse
        (semantic_relevance_reranking semParse results).1).1.length)
      ((query_intent_reranking intParse
        (semantic_relevance_reranking semParse results).1).1, []) with
  | none => rw [hc] at h; cases h
  | some res' =>
    rw [hc] at h
    cases h
    have hcinv := hybridCombine_inv _ _ _ _ _ res' hc
      (by intro j hj; exact List.mem_range.mp hj)
      (by intro j hj; cases hj)
    constructor
    · exact hcinv.1.trans (hi.1.trans hs.1)
    · intro j hj
      rw [mem_sortDescBy] at hj
      have := hcinv.2 j hj
      rwa [lenP2] at this

/-- Every item emitted by the conversion loop carries a position present in
the pool. -/
theorem convertOut_position_mem :
    ∀ (idxs : List Nat) (pool : List SearchResult) (i : Nat) (r : SearchResult),
      (∀ j ∈ idxs, j < pool.length) →
      r ∈ convertOut pool idxs i →
      r.position ∈ pool.map SearchResult.position := by
  intro idxs
  induction idxs with
  | nil => intro pool i r _ hr; cases hr
  | cons j js ih =>
    intro pool i r hb hr
    simp only [convertOut] at hr
    have hj : j < pool.length := hb j (List.mem_cons_self _ _)
    rcases List.mem_cons.mp hr with h | h
    · subst h
      show (pool.getD j default).position ∈ pool.map SearchResult.position
      rw [List.getD_eq_getElem pool default hj]
      exact List.mem_map_of_mem _ (List.getElem_mem hj)
    · have hres := ih _ (i + 1) r (by
        intro j' hj'
        rw [setScoreAt_length]
        exact hb j' (List.mem_cons_of_mem _ hj')) h
      rw [setScoreAt_map_position] at hres
      exact hres

/-- Invariant of the strategy selection block: any successful strategy
outcome preserves positions and selects valid indices. -/
theorem strategyDispatch_inv (strategy : String)
    (semParse intParse : Option (List RerankItem)) (results : List SearchResult)
    (pr : List SearchResult × List Nat)
    (h : strategyDispatch strategy semParse intParse results = some pr) :
    pr.1.map SearchResult.position = results.map SearchResult.position ∧
    ∀ j ∈ pr.2, j < results.length := by
  unfold strategyDispatch at h
  split_ifs at h
  · cases h; exact semantic_pass_inv semParse results
  · cases h; exact intent_pass_inv intParse results
  · exact hybrid_inv semParse intParse results pr h
  · cases h; exact semantic_pass_inv semParse results

/-- C2: every item returned by `rerank_results` (any strategy, any LLM
outcome) carries a `position` that exists among the input candidates'
positions — the reranker never fabricates an item. -/
theorem rerank_position_preservation (strategy : String)
    (semParse intParse : Option (List RerankItem)) (results : List SearchResult)
    (_hne : results ≠ []) :
    ∀ r ∈ rerank_results strategy semParse intParse results,
      r.position ∈ results.map SearchResult.position := by
  intro r hr
  unfold rerank_results at hr
  by_cases he : results.isEmpty
  · rw [if_pos he] at hr
    exact List.mem_map_of_mem _ hr
  · rw [if_neg he] at hr
    cases hd : strategyDispatch strategy semParse intParse results with
    | none =>
      rw [hd] at hr
      exact List.mem_map_of_mem _ hr
    | some pr =>
      rw [hd] at hr
      obtain ⟨hmap, hb⟩ := strategyDispatch_inv strategy semParse intParse results pr hd
      have hb' : ∀ j ∈ pr.2, j < pr.1.length := by
        intro j hj
        rw [length_eq_of_map_position hmap]
        exact hb j hj
      have := convertOut_position_mem pr.2 pr.1 0 r hb' hr
      rwa [hmap] at this

/-- Witness for C2: a concrete item of a concrete reranker output. -/
theorem rerank_position_preservation_witness :
    ({ title := "t", link := "l", snippet := "s", position := 1,
       relevance_score := some 0, rerank_position := some 1 } : SearchResult).position ∈
      ([{ title := "t", link := "l", snippet := "s", position := 1,
          relevance_score := some 0 }] : List SearchResult).map SearchResult.position :=
  rerank_position_preservation "semantic_relevance" none none _ (by simp) _ (.head _)

/-- A clamp `min 1 x` of a nonnegative value lies in `[0, 1]`. -/
theorem min_one_mem {x : ℚ} (hx : 0 ≤ x) : 0 ≤ min 1 x ∧ min 1 x ≤ 1 :=
  ⟨le_min zero_le_one hx, min_le_left _ _⟩

/-- A conditional bonus step `if c then min 1 (x + b) else x` stays in
`[0, 1]`. -/
theorem condStep (c : Prop) [Decidable c] {x b : ℚ} (hx : 0 ≤ x ∧ x ≤ 1)
    (hb : 0 ≤ b) :
    0 ≤ (if c then min 1 (x + b) else x) ∧ (if c then min 1 (x + b) else x) ≤ 1 := by
  split_ifs with h
  · exact min_one_mem (by linarith [hx.1])
  · exact hx

/-- An either-of-two-bonuses step stays in `[0, 1]`. -/
theorem condStep2 (c1 c2 : Prop) [Decidable c1] [Decidable c2] {x b1 b2 : ℚ}
    (hx : 0 ≤ x ∧ x ≤ 1) (h1 : 0 ≤ b1) (h2 : 0 ≤ b2) :
    0 ≤ (if c1 then min 1 (x + b1) else if c2 then min 1 (x + b2) else x) ∧
    (if c1 then min 1 (x + b1) else if c2 then min 1 (x + b2) else x) ≤ 1 := by
  split_ifs with hc1 hc2
  · exact min_one_mem (by linarith [hx.1])
  · exact min_one_mem (by linarith [hx.1])
  · exact hx

/-- A guarded conditional bonus step stays in `[0, 1]`. -/
theorem condStepGuard (c1 c2 : Prop) [Decidable c1] [Decidable c2] {x b : ℚ}
    (hx : 0 ≤ x ∧ x ≤ 1) (hb : 0 ≤ b) :
    0 ≤ (if c1 then (if c2 then min 1 (x + b) else x) else x) ∧
    (if c1 then (if c2 then min 1 (x + b) else x) else x) ≤ 1 := by
  split_ifs with hc1 hc2
  · exact min_one_mem (by linarith [hx.1])
  · exact hx
  · exact hx

/-- The average of a non-empty list of `[0, 1]` values lies in `[0, 1]`. -/
theorem avg_mem {l : List ℚ} (h : ∀ x ∈ l, 0 ≤ x ∧ x ≤ 1) (hl : l ≠ []) :
    0 ≤ l.sum / (l.length : ℚ) ∧ l.sum / (l.length : ℚ) ≤ 1 := by
  have h0 : 0 ≤ l.sum := List.sum_nonneg (fun x hx => (h x hx).1)
  have h1 : l.sum ≤ (l.length : ℚ) := by
    have := List.sum_le_card_nsmul l 1 (fun x hx => (h x hx).2)
    simpa [nsmul_eq_mul] using this
  have hlen : 0 < (l.length : ℚ) := by
    have : 0 < l.length := List.length_pos.mpr hl
    exact_mod_cast this
  exact ⟨div_nonneg h0 hlen.le, (div_le_one hlen).mpr h1⟩

/-- The per-item precision score lies in `[0, 1]`. -/
theorem precCtxScore_mem (query : String) (ctx : CtxItem) :
    0 ≤ precCtxScore query ctx ∧ precCtxScore query ctx ≤ 1 := by
  unfold precCtxScore
  dsimp only []
  refine min_one_mem (add_nonneg ?_ ?_)
  · split_ifs
    · exact (min_one_mem (by positivity)).1
    · exact (min_one_mem (by positivity)).1
    · norm_num
  · split_ifs <;> norm_num

/-- Fallback context precision lies in `[0, 1]`. -/
theorem context_precision_mem (query : String) (context : List CtxItem) :
    0 ≤ calculate_context_precision_fallback query context ∧
    calculate_context_precision_fallback query context ≤ 1 := by
  unfold calculate_context_precision_fallback
  split_ifs with h
  · norm_num
  · have hne : context.map (precCtxScore query) ≠ [] := by
      intro hc
      rw [List.map_eq_nil_iff] at hc
      rw [hc] at h
      exact h rfl
    have := avg_mem (l := context.map (precCtxScore query)) ?_ hne
    · rwa [List.length_map] at this
    · intro x hx
      rcases List.mem_map.mp hx with ⟨c, _, rfl⟩
      exact precCtxScore_mem query c

/-- Fallback faithfulness lies in `[0, 1]`. -/
theorem faithfulness_mem (context : List CtxItem) (response : String) :
    0 ≤ calculate_faithfulness_fallback context response ∧
    calculate_faithfulness_fallback context response ≤ 1 := by
  unfold calculate_faithfulness_fallback
  dsimp only []
  split
  · norm_num
  · split
    · norm_num
    · refine condStep _ ?_ (by norm_num)
      refine condStep _ ?_ (by norm_num)
      refine condStep _ ?_ (by norm_num)
      refine condStep _ ?_ (by positivity)
      refine condStep _ ?_ (by norm_num)
      exact min_one_mem (by positivity)

/-- Fallback answer correctness lies in `[0, 1]`. -/
theorem answer_correctness_mem (response : String) (ground_truth : Option String) :
    0 ≤ calculate_answer_correctness_fallback response ground_truth ∧
    calculate_answer_correctness_fallback response ground_truth ≤ 1 := by
  unfold calculate_answer_correctness_fallback
  dsimp only []
  split
  · refine min_one_mem (add_nonneg (add_nonneg (add_nonneg ?_ ?_) ?_) ?_) <;>
      (split_ifs <;> norm_num)
  · split
    · norm_num
    · split
      · norm_num
      · refine condStepGuard _ _ ?_ (by positivity)
        refine condStep2 _ _ ?_ (by norm_num) (by norm_num)
        exact min_one_mem (by positivity)

/-- The per-item relevancy score lies in `[0, 1]`. -/
theorem relCtxRelevance_mem (query : String) (ctx : CtxItem) :
    0 ≤ relCtxRelevance query ctx ∧ relCtxRelevance query ctx ≤ 1 := by
  unfold relCtxRelevance
  dsimp only []
  refine min_one_mem (add_nonneg ?_ ?_)
  · split_ifs
    · exact (min_one_mem (by positivity)).1
    · exact (min_one_mem (by positivity)).1
    · norm_num
  · split_ifs <;> norm_num

/-- Fallback context relevancy lies in `[0, 1]`. -/
theorem context_relevancy_mem (query : String) (context : List CtxItem) :
    0 ≤ calculate_context_relevancy_fallback query context ∧
    calculate_context_relevancy_fallback query context ≤ 1 := by
  unfold calculate_context_relevancy_fallback
  dsimp only []
  split_ifs with h1 h2
  · norm_num
  · have htot : 0 ≤ (context.enum.map
        (fun p => relCtxRelevance query p.2 * (1 / ((p.1 : ℚ) + 1)))).sum := by
      refine List.sum_nonneg ?_
      intro x hx
      rcases List.mem_map.mp hx with ⟨p, _, rfl⟩
      have := (relCtxRelevance_mem query p.2).1
      positivity
    have hle : (context.enum.map
        (fun p => relCtxRelevance query p.2 * (1 / ((p.1 : ℚ) + 1)))).sum ≤
        (context.enum.map (fun p => (1 : ℚ) / ((p.1 : ℚ) + 1))).sum := by
      refine List.sum_le_sum ?_
      intro p _
      have hr := (relCtxRelevance_mem query p.2).2
      have hw : (0 : ℚ) ≤ 1 / ((p.1 : ℚ) + 1) := by positivity
      calc relCtxRelevance query p.2 * (1 / ((p.1 : ℚ) + 1)) ≤ 1 / ((p.1 : ℚ) + 1) :=
        mul_le_of_le_one_left hw hr
      _ = (1 : ℚ) / ((p.1 : ℚ) + 1) := rfl
    exact ⟨div_nonneg htot (le_of_lt h2), (div_le_one h2).mpr hle⟩
  · norm_num

/-- C7: each of the four fallback metric functions returns a value in
`[0, 1]` on every input, and the fallback `overall_score` — their unweighted
mean — also lies in `[0, 1]`. -/
theorem fallback_metrics_bounded (query : String) (context : List CtxItem)
    (response : String) (ground_truth : Option String) :
    (0 ≤ calculate_context_precision_fallback query context ∧
      calculate_context_precision_fallback query context ≤ 1) ∧
    (0 ≤ calculate_faithfulness_fallback context response ∧
      calculate_faithfulness_fallback context response ≤ 1) ∧
    (0 ≤ calculate_answer_correctness_fallback response ground_truth ∧
      calculate_answer_correctness_fallback response ground_truth ≤ 1) ∧
    (0 ≤ calculate_context_relevancy_fallback query context ∧
      calculate_context_relevancy_fallback query context ≤ 1) ∧
    (0 ≤ (evaluate_with_fallback query context response ground_truth).overall_score ∧
      (evaluate_with_fallback query context response ground_truth).overall_score ≤ 1) := by
  have hp := context_precision_mem query context
  have hf := faithfulness_mem context response
  have ha := answer_correctness_mem response ground_truth
  have hr := context_relevancy_mem query context
  refine ⟨hp, hf, ha, hr, ?_⟩
  have hov : (evaluate_with_fallback query context response ground_truth).overall_score =
      (calculate_context_precision_fallback query context +
       calculate_faithfulness_fallback context response +
       calculate_answer_correctness_fallback response ground_truth +
       calculate_context_relevancy_fallback query context) / 4 := rfl
  rw [hov]
  constructor
  · exact div_nonneg (by linarith [hp.1, hf.1, ha.1, hr.1]) (by norm_num)
  · rw [div_le_one (by norm_num : (0:ℚ) < 4)]
    linarith [hp.2, hf.2, ha.2, hr.2]
